import Mathlib

/-!
Shallow embedding of the `indexer/database` layer of the repository
(`indexer/database/blocks.go` and `indexer/database/contract_events.go`).

The two gorm-backed tables per chain (block headers and contract events)
are modelled as in-memory lists of rows, in insertion order.  The gorm
operations used by the source are embedded as follows:

* `db.Create(&rows)` is a single atomic multi-row INSERT: it fails on an
  empty slice, fails with a duplicate-key error when a primary-key value
  collides with an existing row or with another row of the same batch, and
  otherwise appends the whole batch; on failure no row is persisted (the
  statement is atomic), which the `Except` result encodes by producing a
  successor state only on success.
* `Where(&someStruct)` builds conditions from the NON-ZERO fields of the
  struct only (gorm's documented behaviour for struct conditions); zero
  values are the zero hash/address/UUID, `0` for integers, and a nil
  pointer for the raw-log field.
* `Take(&out)` is `SELECT ... LIMIT 1` without an ORDER BY, modelled as
  the first matching row in table order; `ErrRecordNotFound` is mapped by
  the source to the non-error "absent" result `(nil, nil)`, modelled as
  `Option`.
* `Find(&outs)` runs the query and applies the `AfterFind` hook to every
  returned row, in order.
* An SQL comparison against a NULL bind parameter (a nil `*big.Int`) is
  never satisfied.

`common.Hash`, `common.Address` and `uuid.UUID` are modelled as natural
numbers whose Go zero value corresponds to `0`; `U256` block numbers and
`uint64` timestamps are natural numbers.
-/

/-- Type of `common.Hash` values; the zero hash is `0`. -/
abbrev EthHash := Nat

/-- Type of `common.Address` values; the zero address is `0`. -/
abbrev EthAddress := Nat

/-- Type of `uuid.UUID` values; the zero UUID is `0`. -/
abbrev GUID := Nat

/-- The go-ethereum `types.Log` record.  Its RLP encoding covers only the
consensus fields `address`, `topics` and `data`; the remaining fields are
derived and are NOT retained by an RLP round trip. -/
structure Log where
  address : EthAddress
  topics : List EthHash
  data : List Nat
  blockNumber : Nat
  txHash : EthHash
  txIndex : Nat
  blockHash : EthHash
  index : Nat
  removed : Bool
deriving Repr, DecidableEq

/-- One row of an `l1_block_headers` / `l2_block_headers` table
(`database.BlockHeader`, whose columns both `L1BlockHeader` and
`L2BlockHeader` embed unchanged).  `rlpHeader` models the archival
`rlp_bytes` column, never re-parsed for the core fields. -/
structure BlockHeader where
  hash : EthHash
  parentHash : EthHash
  number : Nat
  timestamp : Nat
  rlpHeader : Option Nat
deriving Repr, DecidableEq

/-- One row of an `l1_contract_events` / `l2_contract_events` table
(`database.ContractEvent`, whose columns both `L1ContractEvent` and
`L2ContractEvent` embed unchanged).  `rlpLog` is the `RLPLog *types.Log`
field backed by the RLP-serialized `rlp_bytes` column; `none` models a nil
pointer / NULL column. -/
structure ContractEvent where
  guid : GUID
  blockHash : EthHash
  contractAddress : EthAddress
  transactionHash : EthHash
  logIndex : Nat
  eventSignature : EthHash
  timestamp : Nat
  rlpLog : Option Log
deriving Repr, DecidableEq

/-- The errors the embedded operations can produce.  The first two are
storage-engine errors propagated verbatim by the source, the third is the
explicit argument error of the dual-chain entry point, and the last models
the nil-pointer dereference panic inside `ContractEvent.AfterFind`. -/
inductive DBError where
  | duplicateKey
  | emptySlice
  | invalidChainType
  | nilRLPLogPanic
deriving Repr, DecidableEq

/-- The four tables owned by the indexer database, in insertion order. -/
structure IndexerDB where
  l1Headers : List BlockHeader
  l2Headers : List BlockHeader
  l1Events : List ContractEvent
  l2Events : List ContractEvent
deriving Repr, DecidableEq

/-- Does this list of primary-key values contain an internal duplicate? -/
def dupWithin : List EthHash → Bool
  | [] => false
  | h :: t => t.contains h || dupWithin t

/-- gorm `db.Create(&headers)` against a block-header table: a single
atomic multi-row INSERT keyed by the `hash` primary key. -/
def createHeaders (table batch : List BlockHeader) : Except DBError (List BlockHeader) :=
  if batch.isEmpty then .error .emptySlice
  else if batch.any (fun h => table.any (fun g => g.hash == h.hash)) ||
      dupWithin (batch.map (fun h => h.hash)) then
    .error .duplicateKey
  else .ok (table ++ batch)

/-- gorm `Where` on a header struct whose `Number` field is set (the only
struct condition the source builds on header tables): the caller always
wraps a non-nil big integer, so the number condition is never dropped,
and `Take` picks the first matching row. -/
def headerByNumber (table : List BlockHeader) (height : Nat) : Option BlockHeader :=
  table.find? (fun h => h.number == height)

/-- `ORDER BY number DESC` followed by `Take`: an element maximizing the
key, the earliest such element in table order on ties. -/
def takeMaxBy {α : Type} (key : α → Nat) : List α → Option α
  | [] => none
  | x :: xs =>
    match takeMaxBy key xs with
    | none => some x
    | some y => if key x < key y then some y else some x

/-- `database.Epoch`: a pair of an L1 and an L2 header row sharing a
timestamp (both header kinds embed the same `BlockHeader` columns). -/
structure Epoch where
  l1BlockHeader : BlockHeader
  l2BlockHeader : BlockHeader
deriving Repr, DecidableEq

/-- The `INNER JOIN l2_block_headers ON l1.timestamp = l2.timestamp` rows
underlying `LatestEpoch`, enumerated L1-major. -/
def epochJoin (l1 l2 : List BlockHeader) : List Epoch :=
  l1.flatMap (fun h1 =>
    (l2.filter (fun h2 => h2.timestamp == h1.timestamp)).map (fun h2 => ⟨h1, h2⟩))

namespace blocksDB

/-- `blocksDB.StoreL1BlockHeaders`: `db.gorm.Create(&headers)`. -/
def StoreL1BlockHeaders (db : IndexerDB) (headers : List BlockHeader) :
    Except DBError IndexerDB :=
  (createHeaders db.l1Headers headers).map (fun t => { db with l1Headers := t })

/-- `blocksDB.StoreL2BlockHeaders`: `db.gorm.Create(&headers)`. -/
def StoreL2BlockHeaders (db : IndexerDB) (headers : List BlockHeader) :
    Except DBError IndexerDB :=
  (createHeaders db.l2Headers headers).map (fun t => { db with l2Headers := t })

/-- `blocksDB.L1BlockHeader`: exact-number lookup; `ErrRecordNotFound` is
mapped to the non-error absent result, modelled as `none`. -/
def L1BlockHeader (db : IndexerDB) (height : Nat) : Option BlockHeader :=
  headerByNumber db.l1Headers height

/-- `blocksDB.L2BlockHeader`: exact-number lookup on the L2 table. -/
def L2BlockHeader (db : IndexerDB) (height : Nat) : Option BlockHeader :=
  headerByNumber db.l2Headers height

/-- `blocksDB.LatestL1BlockHeader`: `Order("number DESC").Take`. -/
def LatestL1BlockHeader (db : IndexerDB) : Option BlockHeader :=
  takeMaxBy (fun h => h.number) db.l1Headers

/-- `blocksDB.LatestL2BlockHeader`: `Order("number DESC").Take` (the extra
logger call in the source has no semantic effect on the result). -/
def LatestL2BlockHeader (db : IndexerDB) : Option BlockHeader :=
  takeMaxBy (fun h => h.number) db.l2Headers

/-- `blocksDB.LatestEpoch`: the timestamp-equality join of the two header
tables, `Order("l1_block_headers.timestamp DESC")`, then `Take`. -/
def LatestEpoch (db : IndexerDB) : Option Epoch :=
  takeMaxBy (fun e => e.l1BlockHeader.timestamp) (epochJoin db.l1Headers db.l2Headers)

end blocksDB

/-- The zero `database.ContractEvent` struct, from which the source builds
its struct-valued `Where` conditions by setting individual fields. -/
def emptyContractEvent : ContractEvent :=
  { guid := 0, blockHash := 0, contractAddress := 0, transactionHash := 0,
    logIndex := 0, eventSignature := 0, timestamp := 0, rlpLog := none }

/-- `database.ContractEventFromLog`: builds the stored record from a log
and the containing block's timestamp.  `uuid.New()` is modelled by taking
the fresh GUID as a parameter; the Go `log` argument is a non-nil pointer,
modelled by taking a `Log` value, and it is stored as the `RLPLog` field,
so the field is always non-nil on this construction path. -/
def ContractEventFromLog (newGUID : GUID) (log : Log) (timestamp : Nat) : ContractEvent :=
  let eventSig : EthHash :=
    match log.topics with
    | [] => 0
    | t :: _ => t
  { guid := newGUID,
    blockHash := log.blockHash,
    transactionHash := log.txHash,
    contractAddress := log.address,
    eventSignature := eventSig,
    logIndex := log.index,
    timestamp := timestamp,
    rlpLog := some log }

/-- A store-then-load round trip of the `serializer:rlp` column: RLP keeps
only the consensus fields of a log, so decoding leaves every derived field
at its zero value (which is why `AfterFind` exists, per the NOTE in the
source). -/
def rlpRoundTrip (log : Log) : Log :=
  { address := log.address, topics := log.topics, data := log.data,
    blockNumber := 0, txHash := 0, txIndex := 0, blockHash := 0, index := 0,
    removed := false }

/-- The value actually held by the `rlp_bytes` column of an event row
(its RLP-encoded consensus fields), used when a struct condition compares
the serialized column. -/
def rlpEncoded (log : Log) : EthAddress × List EthHash × List Nat :=
  (log.address, log.topics, log.data)

/-- `ContractEvent.AfterFind` gorm hook: overwrites the decoded raw log's
block hash, transaction hash and log index with the row's canonical
columns.  The Go code dereferences `c.RLPLog` without a nil check, so a
row whose raw log is nil makes the hook panic, modelled as the
`nilRLPLogPanic` error. -/
def ContractEvent.afterFind (c : ContractEvent) : Except DBError ContractEvent :=
  match c.rlpLog with
  | none => .error .nilRLPLogPanic
  | some log =>
    .ok { c with rlpLog := some { log with blockHash := c.blockHash,
                                           txHash := c.transactionHash,
                                           index := c.logIndex } }

/-- Deserializing one row of an events table: the canonical columns are
json-serialized (lossless), the raw-log column round-trips through RLP. -/
def decodeRow (c : ContractEvent) : ContractEvent :=
  { c with rlpLog := c.rlpLog.map rlpRoundTrip }

/-- Everything gorm does to one row on the read path: deserialize it, then
run the `AfterFind` hook. -/
def readEvent (c : ContractEvent) : Except DBError ContractEvent :=
  (decodeRow c).afterFind

/-- The read-path row loop of `Find`: hooks are applied per returned row,
in order, and a panic aborts the call. -/
def readEvents : List ContractEvent → Except DBError (List ContractEvent)
  | [] => .ok []
  | c :: cs =>
    match readEvent c with
    | .error e => .error e
    | .ok x =>
      match readEvents cs with
      | .error e => .error e
      | .ok xs => .ok (x :: xs)

/-- gorm struct-valued `Where(&filter)` on an events table: only the
non-zero fields of the filter struct contribute conditions.  A non-nil
filter raw log compares the serialized `rlp_bytes` column, i.e. the
RLP-encoded consensus fields. -/
def matchesWhere (filter e : ContractEvent) : Bool :=
  (filter.guid == 0 || e.guid == filter.guid) &&
  (filter.blockHash == 0 || e.blockHash == filter.blockHash) &&
  (filter.contractAddress == 0 || e.contractAddress == filter.contractAddress) &&
  (filter.transactionHash == 0 || e.transactionHash == filter.transactionHash) &&
  (filter.logIndex == 0 || e.logIndex == filter.logIndex) &&
  (filter.eventSignature == 0 || e.eventSignature == filter.eventSignature) &&
  (filter.timestamp == 0 || e.timestamp == filter.timestamp) &&
  (match filter.rlpLog with
   | none => true
   | some fl =>
     match e.rlpLog with
     | none => false
     | some el => decide (rlpEncoded el = rlpEncoded fl))

/-- gorm `Where(&filter).Take(&out)` on an events table: first matching
row in table order, hooks applied to it; a missing row is the non-error
absent result. -/
def eventWhereTake (table : List ContractEvent) (filter : ContractEvent) :
    Except DBError (Option ContractEvent) :=
  match table.find? (fun e => matchesWhere filter e) with
  | none => .ok none
  | some e => (readEvent e).map some

/-- The joined, filtered rows of the range query, each paired with its
containing header's number:

SELECT events.*, headers.number FROM events
INNER JOIN headers ON events.block_hash = headers.hash
WHERE (struct conditions of the filter)
AND headers.number >= fromHeight AND headers.number <= toHeight.

A `none` `toHeight` reaches SQL as a NULL bind parameter, and
`number <= NULL` is never satisfied. -/
def filterRows (events : List ContractEvent) (headers : List BlockHeader)
    (filter : ContractEvent) (fromH : Nat) (toHeight : Option Nat) :
    List (ContractEvent × Nat) :=
  (events.filter (fun e => matchesWhere filter e)).flatMap (fun e =>
    ((headers.filter (fun h => h.hash == e.blockHash)).filter (fun h =>
        decide (fromH ≤ h.number) &&
        (match toHeight with
         | some t => decide (h.number ≤ t)
         | none => false))).map
      (fun h => (e, h.number)))

/-- Shared body of `L1ContractEventsWithFilter` and
`L2ContractEventsWithFilter`: default a nil `fromHeight` to 0, run the
joined range query, `ORDER BY headers.number ASC`, drop the join column,
and scan the rows with the `AfterFind` hook (`Find` is used precisely so
that the hook runs). -/
def eventsWithFilter (events : List ContractEvent) (headers : List BlockHeader)
    (filter : ContractEvent) (fromHeight toHeight : Option Nat) :
    Except DBError (List ContractEvent) :=
  readEvents
    (((filterRows events headers filter (fromHeight.getD 0) toHeight).insertionSort
        (fun a b => a.2 ≤ b.2)).map (fun p => p.1))

namespace contractEventsDB

/-- `contractEventsDB.L1ContractEvent`: lookup by GUID. -/
def L1ContractEvent (db : IndexerDB) (guid : GUID) : Except DBError (Option ContractEvent) :=
  eventWhereTake db.l1Events { emptyContractEvent with guid := guid }

/-- `contractEventsDB.L2ContractEvent`: lookup by GUID. -/
def L2ContractEvent (db : IndexerDB) (guid : GUID) : Except DBError (Option ContractEvent) :=
  eventWhereTake db.l2Events { emptyContractEvent with guid := guid }

/-- `contractEventsDB.L1ContractEventByTxLogIndex`: struct-condition
lookup built from the transaction hash and the log index. -/
def L1ContractEventByTxLogIndex (db : IndexerDB) (txHash : EthHash) (logIndex : Nat) :
    Except DBError (Option ContractEvent) :=
  eventWhereTake db.l1Events
    { emptyContractEvent with transactionHash := txHash, logIndex := logIndex }

/-- `contractEventsDB.L2ContractEventByTxLogIndex`: struct-condition
lookup built from the transaction hash and the log index. -/
def L2ContractEventByTxLogIndex (db : IndexerDB) (txHash : EthHash) (logIndex : Nat) :
    Except DBError (Option ContractEvent) :=
  eventWhereTake db.l2Events
    { emptyContractEvent with transactionHash := txHash, logIndex := logIndex }

/-- `contractEventsDB.L1ContractEventsWithFilter`: the L1 range query. -/
def L1ContractEventsWithFilter (db : IndexerDB) (filter : ContractEvent)
    (fromHeight toHeight : Option Nat) : Except DBError (List ContractEvent) :=
  eventsWithFilter db.l1Events db.l1Headers filter fromHeight toHeight

/-- `contractEventsDB.L2ContractEventsWithFilter`: the L2 range query. -/
def L2ContractEventsWithFilter (db : IndexerDB) (filter : ContractEvent)
    (fromHeight toHeight : Option Nat) : Except DBError (List ContractEvent) :=
  eventsWithFilter db.l2Events db.l2Headers filter fromHeight toHeight

/-- `contractEventsDB.ContractEventsWithFilter`: dual-chain entry point.
It dispatches on the chain-selector string, copies each element of the
per-chain result into the chain-agnostic `ContractEvent` shape (the
embedded-column projection, the identity on the shared columns, modelled
as an element-wise `map`), and rejects any other selector with the
invalid-argument error built by `errors.New`. -/
def ContractEventsWithFilter (db : IndexerDB) (filter : ContractEvent) (chain : String)
    (fromHeight toHeight : Option Nat) : Except DBError (List ContractEvent) :=
  match chain with
  | "l1" =>
    match L1ContractEventsWithFilter db filter fromHeight toHeight with
    | .error e => .error e
    | .ok l1Events => .ok (l1Events.map id)
  | "l2" =>
    match L2ContractEventsWithFilter db filter fromHeight toHeight with
    | .error e => .error e
    | .ok l2Events => .ok (l2Events.map id)
  | _ => .error .invalidChainType

end contractEventsDB

/-- The number of the containing header of an event: the unique header row
whose hash equals the event's block hash (0 when there is none). -/
def containingNumber (headers : List BlockHeader) (e : ContractEvent) : Nat :=
  ((headers.find? (fun h => h.hash == e.blockHash)).map (fun h => h.number)).getD 0

/-- The returned record's raw-log payload agrees with its canonical
block-hash, transaction-hash and log-index columns. -/
def rawLogReconciled (e : ContractEvent) : Prop :=
  ∃ log, e.rlpLog = some log ∧ log.blockHash = e.blockHash ∧
    log.txHash = e.transactionHash ∧ log.index = e.logIndex

/-- The value `readEvent` produces on a row whose raw log is non-nil
(proved below); on a nil raw log it returns the row unchanged. -/
def forceRead (c : ContractEvent) : ContractEvent :=
  { c with rlpLog := c.rlpLog.map (fun log =>
      { address := log.address, topics := log.topics, data := log.data,
        blockNumber := 0, txHash := c.transactionHash, txIndex := 0,
        blockHash := c.blockHash, index := c.logIndex, removed := false }) }

/-! ### Helper lemmas -/

theorem takeMaxBy_eq_none {α : Type} (key : α → Nat) (l : List α) :
    takeMaxBy key l = none ↔ l = [] := by
  cases l with
  | nil => simp [takeMaxBy]
  | cons x xs =>
    simp only [takeMaxBy]
    constructor
    · intro h
      cases hx : takeMaxBy key xs with
      | none => rw [hx] at h; simp at h
      | some y => rw [hx] at h; by_cases hk : key x < key y <;> simp [hk] at h
    · intro h
      simp at h

theorem takeMaxBy_spec {α : Type} (key : α → Nat) (l : List α) :
    ∀ x, takeMaxBy key l = some x → x ∈ l ∧ ∀ y ∈ l, key y ≤ key x := by
  induction l with
  | nil => intro x hx; simp [takeMaxBy] at hx
  | cons a as ih =>
    intro x hx
    simp only [takeMaxBy] at hx
    cases h : takeMaxBy key as with
    | none =>
      rw [h] at hx
      obtain rfl : a = x := by simpa using hx
      have hnil : as = [] := (takeMaxBy_eq_none key as).1 h
      subst hnil
      simp
    | some y =>
      rw [h] at hx
      obtain ⟨hymem, hymax⟩ := ih y h
      by_cases hlt : key a < key y
      · obtain rfl : y = x := by simpa [hlt] using hx
        refine ⟨List.mem_cons_of_mem _ hymem, ?_⟩
        intro z hz
        rcases List.mem_cons.1 hz with rfl | hz
        · exact Nat.le_of_lt hlt
        · exact hymax z hz
      · obtain rfl : a = x := by simpa [hlt] using hx
        refine ⟨List.mem_cons_self _ _, ?_⟩
        intro z hz
        rcases List.mem_cons.1 hz with rfl | hz
        · exact Nat.le_refl _
        · exact Nat.le_trans (hymax z hz) (Nat.le_of_not_lt hlt)

theorem mem_epochJoin {l1 l2 : List BlockHeader} {ep : Epoch} :
    ep ∈ epochJoin l1 l2 ↔
      ep.l1BlockHeader ∈ l1 ∧ ep.l2BlockHeader ∈ l2 ∧
        ep.l1BlockHeader.timestamp = ep.l2BlockHeader.timestamp := by
  cases ep with
  | mk h1 h2 =>
    simp only [epochJoin, List.mem_flatMap, List.mem_map, List.mem_filter, beq_iff_eq]
    constructor
    · rintro ⟨g1, hg1, g2, ⟨hg2, hts⟩, heq⟩
      cases heq
      exact ⟨hg1, hg2, hts.symm⟩
    · rintro ⟨hg1, hg2, hts⟩
      exact ⟨h1, hg1, h2, ⟨hg2, hts.symm⟩, rfl⟩

theorem createHeaders_ok {table batch t : List BlockHeader}
    (h : createHeaders table batch = .ok t) : t = table ++ batch := by
  unfold createHeaders at h
  split at h
  · exact absurd h (by simp)
  · split at h
    · exact absurd h (by simp)
    · simpa using h.symm

theorem createHeaders_duplicate {table batch : List BlockHeader}
    (hne : batch ≠ []) {h g : BlockHeader} (hmem : h ∈ batch)
    (hgmem : g ∈ table) (hhash : g.hash = h.hash) :
    createHeaders table batch = .error .duplicateKey := by
  unfold createHeaders
  rw [if_neg, if_pos]
  · exact Bool.or_eq_true_iff.2 (Or.inl (List.any_eq_true.2
      ⟨h, hmem, List.any_eq_true.2 ⟨g, hgmem, by simp [hhash]⟩⟩))
  · simpa [List.isEmpty_iff] using hne

theorem storeL1_ok {db db' : IndexerDB} {batch : List BlockHeader}
    (hok : blocksDB.StoreL1BlockHeaders db batch = .ok db') :
    db'.l1Headers = db.l1Headers ++ batch ∧ db'.l2Headers = db.l2Headers ∧
    db'.l1Events = db.l1Events ∧ db'.l2Events = db.l2Events := by
  unfold blocksDB.StoreL1BlockHeaders at hok
  cases hc : createHeaders db.l1Headers batch with
  | error e => rw [hc] at hok; exact absurd hok (by simp [Except.map])
  | ok t =>
    rw [hc] at hok
    have ht : t = db.l1Headers ++ batch := createHeaders_ok hc
    have hdb : { db with l1Headers := t } = db' := by simpa [Except.map] using hok
    subst ht
    rw [← hdb]
    exact ⟨rfl, rfl, rfl, rfl⟩

theorem storeL2_ok {db db' : IndexerDB} {batch : List BlockHeader}
    (hok : blocksDB.StoreL2BlockHeaders db batch = .ok db') :
    db'.l2Headers = db.l2Headers ++ batch ∧ db'.l1Headers = db.l1Headers ∧
    db'.l1Events = db.l1Events ∧ db'.l2Events = db.l2Events := by
  unfold blocksDB.StoreL2BlockHeaders at hok
  cases hc : createHeaders db.l2Headers batch with
  | error e => rw [hc] at hok; exact absurd hok (by simp [Except.map])
  | ok t =>
    rw [hc] at hok
    have ht : t = db.l2Headers ++ batch := createHeaders_ok hc
    have hdb : { db with l2Headers := t } = db' := by simpa [Except.map] using hok
    subst ht
    rw [← hdb]
    exact ⟨rfl, rfl, rfl, rfl⟩

theorem headerByNumber_eq_of_mem {table : List BlockHeader} {h : BlockHeader}
    (hmem : h ∈ table) (hnodup : (table.map (fun g => g.number)).Nodup) :
    headerByNumber table h.number = some h := by
  cases hfind : headerByNumber table h.number with
  | none =>
    rw [headerByNumber, List.find?_eq_none] at hfind
    exact absurd (by simp : (h.number == h.number) = true) (hfind h hmem)
  | some g =>
    have hg : g.number = h.number := by simpa using List.find?_some hfind
    have hgmem : g ∈ table := List.mem_of_find?_eq_some hfind
    have hg2 : g = h := List.inj_on_of_nodup_map hnodup hgmem hmem hg
    exact congrArg some hg2

theorem headerByNumber_eq_none {table : List BlockHeader} {n : Nat}
    (habs : ∀ g ∈ table, g.number ≠ n) : headerByNumber table n = none := by
  rw [headerByNumber, List.find?_eq_none]
  intro g hg
  simpa using habs g hg

/-! ### Claim theorems -/

/-- C1: `LatestEpoch` returns the absent (non-error) result exactly when
no L1 header shares a timestamp with an L2 header, and otherwise returns a
pair of stored L1/L2 headers with equal timestamps whose shared timestamp
is greatest among all timestamp-sharing pairs. -/
theorem latestEpoch_correct (db : IndexerDB) :
    (blocksDB.LatestEpoch db = none ↔
      ∀ h1 ∈ db.l1Headers, ∀ h2 ∈ db.l2Headers, h1.timestamp ≠ h2.timestamp) ∧
    (∀ ep, blocksDB.LatestEpoch db = some ep →
      ep.l1BlockHeader ∈ db.l1Headers ∧ ep.l2BlockHeader ∈ db.l2Headers ∧
      ep.l1BlockHeader.timestamp = ep.l2BlockHeader.timestamp ∧
      ∀ h1 ∈ db.l1Headers, ∀ h2 ∈ db.l2Headers, h1.timestamp = h2.timestamp →
        h1.timestamp ≤ ep.l1BlockHeader.timestamp) := by
  constructor
  · rw [blocksDB.LatestEpoch, takeMaxBy_eq_none, List.eq_nil_iff_forall_not_mem]
    constructor
    · intro h h1 h1m h2 h2m hts
      exact h ⟨h1, h2⟩ (mem_epochJoin.2 ⟨h1m, h2m, hts⟩)
    · intro h ep hm
      obtain ⟨m1, m2, mts⟩ := mem_epochJoin.1 hm
      exact h _ m1 _ m2 mts
  · intro ep hep
    obtain ⟨hmem, hmax⟩ := takeMaxBy_spec _ _ ep hep
    obtain ⟨m1, m2, mts⟩ := mem_epochJoin.1 hmem
    refine ⟨m1, m2, mts, ?_⟩
    intro h1 h1m h2 h2m hts
    exact hmax ⟨h1, h2⟩ (mem_epochJoin.2 ⟨h1m, h2m, hts⟩)

/-- The scenario of the spec: L1 block 100 at timestamp 1000; L2 blocks
499 (timestamp 900) and 500 (timestamp 1000). -/
def epochScenarioDB : IndexerDB :=
  { l1Headers := [{ hash := 1, parentHash := 0, number := 100, timestamp := 1000,
                    rlpHeader := none }],
    l2Headers := [{ hash := 3, parentHash := 2, number := 499, timestamp := 900,
                    rlpHeader := none },
                  { hash := 4, parentHash := 3, number := 500, timestamp := 1000,
                    rlpHeader := none }],
    l1Events := [], l2Events := [] }

/-- The epoch the scenario derives: the pair (L1 block 100, L2 block 500). -/
def epochScenarioEpoch : Epoch :=
  { l1BlockHeader := { hash := 1, parentHash := 0, number := 100, timestamp := 1000,
                       rlpHeader := none },
    l2BlockHeader := { hash := 4, parentHash := 3, number := 500, timestamp := 1000,
                       rlpHeader := none } }

/-- Witness for C1: on the spec's scenario state, `LatestEpoch` yields the
pair of blocks 100 and 500, and the theorem applies to it. -/
theorem latestEpoch_correct_witness :
    blocksDB.LatestEpoch epochScenarioDB = some epochScenarioEpoch ∧
    epochScenarioEpoch.l1BlockHeader ∈ epochScenarioDB.l1Headers ∧
    epochScenarioEpoch.l2BlockHeader ∈ epochScenarioDB.l2Headers ∧
    epochScenarioEpoch.l1BlockHeader.timestamp = epochScenarioEpoch.l2BlockHeader.timestamp :=
  ⟨rfl,
   ((latestEpoch_correct epochScenarioDB).2 epochScenarioEpoch rfl).1,
   ((latestEpoch_correct epochScenarioDB).2 epochScenarioEpoch rfl).2.1,
   ((latestEpoch_correct epochScenarioDB).2 epochScenarioEpoch rfl).2.2.1⟩

/-- C7: `LatestL1BlockHeader`/`LatestL2BlockHeader` return the absent
result exactly when the chain's table is empty — so on a non-empty table
a header is always returned — and every returned header is a stored
header of that chain whose number is greater than or equal to every
stored header's number. -/
theorem latestBlockHeader_max (db : IndexerDB) :
    (blocksDB.LatestL1BlockHeader db = none ↔ db.l1Headers = []) ∧
    (∀ h, blocksDB.LatestL1BlockHeader db = some h →
      h ∈ db.l1Headers ∧ ∀ g ∈ db.l1Headers, g.number ≤ h.number) ∧
    (blocksDB.LatestL2BlockHeader db = none ↔ db.l2Headers = []) ∧
    (∀ h, blocksDB.LatestL2BlockHeader db = some h →
      h ∈ db.l2Headers ∧ ∀ g ∈ db.l2Headers, g.number ≤ h.number) := by
  refine ⟨takeMaxBy_eq_none _ _, ?_, takeMaxBy_eq_none _ _, ?_⟩
  · intro h hh
    exact takeMaxBy_spec _ _ h hh
  · intro h hh
    exact takeMaxBy_spec _ _ h hh

/-- A two-header L1 table used to witness the latest-header claim. -/
def latestScenarioDB : IndexerDB :=
  { l1Headers := [{ hash := 1, parentHash := 0, number := 7, timestamp := 70,
                    rlpHeader := none },
                  { hash := 2, parentHash := 1, number := 9, timestamp := 90,
                    rlpHeader := none }],
    l2Headers := [], l1Events := [], l2Events := [] }

/-- Witness for C7: on a concrete two-header table the returned header is
stored and has the maximal number, and the empty L2 side is absent. -/
theorem latestBlockHeader_max_witness :
    (∃ h, blocksDB.LatestL1BlockHeader latestScenarioDB = some h ∧
      h ∈ latestScenarioDB.l1Headers ∧ h.number = 9) ∧
    blocksDB.LatestL2BlockHeader latestScenarioDB = none :=
  ⟨⟨{ hash := 2, parentHash := 1, number := 9, timestamp := 90, rlpHeader := none },
    rfl,
    ((latestBlockHeader_max latestScenarioDB).2.1 _ rfl).1,
    rfl⟩,
   (latestBlockHeader_max latestScenarioDB).2.2.1.mpr rfl⟩

/-- C2: after a successful bulk store, the exact-number lookup of any
header of the batch returns a header agreeing with it on hash, parent
hash, number and timestamp (under the externally-enforced uniqueness of
numbers within a chain's table, which the source does not re-validate);
and the lookup of a number no stored header has returns the absent
(non-error) result. -/
theorem blockHeader_lookup_after_store (db db' : IndexerDB) (batch : List BlockHeader)
    (h : BlockHeader) (n : Nat) :
    (blocksDB.StoreL1BlockHeaders db batch = .ok db' → h ∈ batch →
      (db'.l1Headers.map (fun g => g.number)).Nodup →
      ∃ h', blocksDB.L1BlockHeader db' h.number = some h' ∧ h'.hash = h.hash ∧
        h'.parentHash = h.parentHash ∧ h'.number = h.number ∧ h'.timestamp = h.timestamp) ∧
    ((∀ g ∈ db.l1Headers, g.number ≠ n) → blocksDB.L1BlockHeader db n = none) ∧
    (blocksDB.StoreL2BlockHeaders db batch = .ok db' → h ∈ batch →
      (db'.l2Headers.map (fun g => g.number)).Nodup →
      ∃ h', blocksDB.L2BlockHeader db' h.number = some h' ∧ h'.hash = h.hash ∧
        h'.parentHash = h.parentHash ∧ h'.number = h.number ∧ h'.timestamp = h.timestamp) ∧
    ((∀ g ∈ db.l2Headers, g.number ≠ n) → blocksDB.L2BlockHeader db n = none) := by
  refine ⟨?_, ?_, ?_, ?_⟩
  · intro hok hmem hnodup
    have htab := (storeL1_ok hok).1
    have hmem' : h ∈ db'.l1Headers := by
      rw [htab]
      exact List.mem_append_right _ hmem
    exact ⟨h, headerByNumber_eq_of_mem hmem' hnodup, rfl, rfl, rfl, rfl⟩
  · intro habs
    exact headerByNumber_eq_none habs
  · intro hok hmem hnodup
    have htab := (storeL2_ok hok).1
    have hmem' : h ∈ db'.l2Headers := by
      rw [htab]
      exact List.mem_append_right _ hmem
    exact ⟨h, headerByNumber_eq_of_mem hmem' hnodup, rfl, rfl, rfl, rfl⟩
  · intro habs
    exact headerByNumber_eq_none habs

/-- The empty database. -/
def emptyDB : IndexerDB :=
  { l1Headers := [], l2Headers := [], l1Events := [], l2Events := [] }

/-- A header used by the store/lookup witnesses. -/
def witnessHeader : BlockHeader :=
  { hash := 11, parentHash := 10, number := 100, timestamp := 1000, rlpHeader := some 3 }

/-- The state after storing `witnessHeader` into the empty database. -/
def witnessHeaderDB : IndexerDB :=
  { l1Headers := [witnessHeader], l2Headers := [], l1Events := [], l2Events := [] }

/-- Witness for C2: storing one concrete header and looking its number up
returns a header with equal fields; an unused number is absent. -/
theorem blockHeader_lookup_after_store_witness :
    (∃ h', blocksDB.L1BlockHeader witnessHeaderDB witnessHeader.number = some h' ∧
      h'.hash = witnessHeader.hash ∧ h'.parentHash = witnessHeader.parentHash ∧
      h'.number = witnessHeader.number ∧ h'.timestamp = witnessHeader.timestamp) ∧
    blocksDB.L1BlockHeader witnessHeaderDB 555 = none :=
  ⟨(blockHeader_lookup_after_store emptyDB witnessHeaderDB [witnessHeader]
      witnessHeader 555).1 rfl (by decide) (by decide),
   (blockHeader_lookup_after_store witnessHeaderDB witnessHeaderDB [witnessHeader]
      witnessHeader 555).2.1 (by decide)⟩

/-- C8: on either chain, storing a non-empty batch containing a header
whose hash is already present in that chain's table fails with the
duplicate-key error; and the store is all-or-nothing: a success appends
exactly the whole batch to that chain's table and changes nothing else,
while an error produces no successor state at all, so no row of a failing
batch is persisted. -/
theorem storeBlockHeaders_duplicate_atomic (db : IndexerDB) (batch : List BlockHeader) :
    (batch ≠ [] → (∃ h ∈ batch, ∃ g ∈ db.l1Headers, g.hash = h.hash) →
      blocksDB.StoreL1BlockHeaders db batch = .error .duplicateKey) ∧
    (batch ≠ [] → (∃ h ∈ batch, ∃ g ∈ db.l2Headers, g.hash = h.hash) →
      blocksDB.StoreL2BlockHeaders db batch = .error .duplicateKey) ∧
    (∀ db', blocksDB.StoreL1BlockHeaders db batch = .ok db' →
      db'.l1Headers = db.l1Headers ++ batch ∧ db'.l2Headers = db.l2Headers ∧
      db'.l1Events = db.l1Events ∧ db'.l2Events = db.l2Events) ∧
    (∀ db', blocksDB.StoreL2BlockHeaders db batch = .ok db' →
      db'.l2Headers = db.l2Headers ++ batch ∧ db'.l1Headers = db.l1Headers ∧
      db'.l1Events = db.l1Events ∧ db'.l2Events = db.l2Events) := by
  refine ⟨?_, ?_, fun db' h => storeL1_ok h, fun db' h => storeL2_ok h⟩
  · rintro hne ⟨h, hmem, g, hgmem, hh⟩
    unfold blocksDB.StoreL1BlockHeaders
    rw [createHeaders_duplicate hne hmem hgmem hh]
    rfl
  · rintro hne ⟨h, hmem, g, hgmem, hh⟩
    unfold blocksDB.StoreL2BlockHeaders
    rw [createHeaders_duplicate hne hmem hgmem hh]
    rfl

/-- Witness for C8: storing a header again after it was committed fails
with the duplicate-key error, and the first store appended exactly its
batch. -/
theorem storeBlockHeaders_duplicate_atomic_witness :
    blocksDB.StoreL1BlockHeaders witnessHeaderDB [witnessHeader] = .error .duplicateKey ∧
    witnessHeaderDB.l1Headers = emptyDB.l1Headers ++ [witnessHeader] :=
  ⟨(storeBlockHeaders_duplicate_atomic witnessHeaderDB [witnessHeader]).1
      (by decide)
      ⟨witnessHeader, List.mem_singleton.2 rfl, witnessHeader, by decide, rfl⟩,
   ((storeBlockHeaders_duplicate_atomic emptyDB [witnessHeader]).2.2.1
      witnessHeaderDB rfl).1⟩

/-! ### Event read-path lemmas -/

theorem readEvent_isSome_ok (c : ContractEvent) (h : c.rlpLog.isSome) :
    readEvent c = .ok (forceRead c) := by
  cases hc : c.rlpLog with
  | none => rw [hc] at h; simp at h
  | some log =>
    simp [readEvent, decodeRow, ContractEvent.afterFind, forceRead, rlpRoundTrip, hc]

theorem readEvent_nil (c : ContractEvent) (hc : c.rlpLog = none) :
    readEvent c = .error .nilRLPLogPanic := by
  simp [readEvent, decodeRow, ContractEvent.afterFind, hc]

theorem readEvent_ok_eq {c e : ContractEvent} (h : readEvent c = .ok e) :
    e = forceRead c := by
  cases hc : c.rlpLog with
  | none => rw [readEvent_nil c hc] at h; exact absurd h (by simp)
  | some log =>
    rw [readEvent_isSome_ok c (by simp [hc])] at h
    have hx : forceRead c = e := by simpa using h
    exact hx.symm

theorem readEvent_reconciled {c e : ContractEvent} (h : readEvent c = .ok e) :
    rawLogReconciled e := by
  have he := readEvent_ok_eq h
  cases hc : c.rlpLog with
  | none => rw [readEvent_nil c hc] at h; exact absurd h (by simp)
  | some log =>
    subst he
    exact ⟨{ address := log.address, topics := log.topics, data := log.data,
             blockNumber := 0, txHash := c.transactionHash, txIndex := 0,
             blockHash := c.blockHash, index := c.logIndex, removed := false },
           by simp [forceRead, hc], rfl, rfl, rfl⟩

theorem readEvents_ok_of_isSome (l : List ContractEvent)
    (h : ∀ c ∈ l, c.rlpLog.isSome) : readEvents l = .ok (l.map forceRead) := by
  induction l with
  | nil => rfl
  | cons c cs ih =>
    have h1 : readEvent c = .ok (forceRead c) :=
      readEvent_isSome_ok c (h c (List.mem_cons_self c cs))
    have h2 := ih (fun x hx => h x (List.mem_cons_of_mem c hx))
    simp [readEvents, h1, h2]

theorem readEvents_ok_mem {l es : List ContractEvent}
    (h : readEvents l = .ok es) : ∀ e ∈ es, ∃ c ∈ l, readEvent c = .ok e := by
  induction l generalizing es with
  | nil =>
    obtain rfl : es = ([] : List ContractEvent) := by
      simpa [readEvents] using h.symm
    intro e he
    simp at he
  | cons c cs ih =>
    cases hr : readEvent c with
    | error err => simp [readEvents, hr] at h
    | ok x =>
      cases hrs : readEvents cs with
      | error err => simp [readEvents, hr, hrs] at h
      | ok xs =>
        have hes : es = x :: xs := by simpa [readEvents, hr, hrs] using h.symm
        subst hes
        intro e he
        rcases List.mem_cons.1 he with rfl | he
        · exact ⟨c, List.mem_cons_self c cs, hr⟩
        · obtain ⟨d, hd, hde⟩ := ih hrs e he
          exact ⟨d, List.mem_cons_of_mem c hd, hde⟩

theorem eventWhereTake_ok_some {table : List ContractEvent} {f e : ContractEvent}
    (h : eventWhereTake table f = .ok (some e)) :
    ∃ c ∈ table, matchesWhere f c ∧ readEvent c = .ok e := by
  unfold eventWhereTake at h
  cases hf : table.find? (fun x => matchesWhere f x) with
  | none => rw [hf] at h; simp at h
  | some c =>
    rw [hf] at h
    dsimp only at h
    have hm : c ∈ table := List.mem_of_find?_eq_some hf
    have hw : matchesWhere f c := by simpa using List.find?_some hf
    cases hr : readEvent c with
    | error err => rw [hr] at h; exact absurd h (by simp [Except.map])
    | ok x =>
      rw [hr] at h
      have hx : x = e := by simpa [Except.map] using h
      exact ⟨c, hm, hw, by rw [hr, hx]⟩

theorem eventWhereTake_ok_of_isSome (table : List ContractEvent) (f : ContractEvent)
    (h : ∀ c ∈ table, c.rlpLog.isSome) : ∃ r, eventWhereTake table f = .ok r := by
  unfold eventWhereTake
  cases hf : table.find? (fun x => matchesWhere f x) with
  | none => exact ⟨none, rfl⟩
  | some c =>
    dsimp only
    rw [readEvent_isSome_ok c (h c (List.mem_of_find?_eq_some hf))]
    exact ⟨some (forceRead c), rfl⟩

theorem filterRows_fst_mem {events : List ContractEvent} {headers : List BlockHeader}
    {filter : ContractEvent} {fromH : Nat} {toH : Option Nat} {p : ContractEvent × Nat}
    (hp : p ∈ filterRows events headers filter fromH toH) : p.1 ∈ events := by
  simp only [filterRows, List.mem_flatMap, List.mem_map, List.mem_filter] at hp
  obtain ⟨e, ⟨he, _⟩, g, _, hpe⟩ := hp
  rw [← hpe]
  exact he

/-- An ingested raw payload whose derived fields disagree with the
canonical columns of the row that stores it. -/
def staleLog : Log :=
  { address := 7, topics := [9, 13], data := [1, 2], blockNumber := 3,
    txHash := 99, txIndex := 2, blockHash := 88, index := 4, removed := false }

/-- An event row whose canonical columns differ from its raw payload's
derived fields, with transaction hash 5 and log index 1. -/
def staleEvent : ContractEvent :=
  { guid := 11, blockHash := 201, contractAddress := 7, transactionHash := 5,
    logIndex := 1, eventSignature := 9, timestamp := 1000, rlpLog := some staleLog }

/-- A state whose L1 events table holds exactly `staleEvent`. -/
def staleDB : IndexerDB :=
  { l1Headers := [], l2Headers := [], l1Events := [staleEvent], l2Events := [] }

/-- C3: every event returned by any read operation of the event store (the
GUID lookup, the by-location lookup, or the range filter query, on either
chain) has its raw-log payload's block hash, transaction hash and log
index equal to the row's canonical columns, whatever values the
originally-ingested payload encoded for those fields. -/
theorem reads_reconcile_rawLog (db : IndexerDB) :
    (∀ g e, contractEventsDB.L1ContractEvent db g = .ok (some e) → rawLogReconciled e) ∧
    (∀ g e, contractEventsDB.L2ContractEvent db g = .ok (some e) → rawLogReconciled e) ∧
    (∀ tx idx e, contractEventsDB.L1ContractEventByTxLogIndex db tx idx = .ok (some e) →
      rawLogReconciled e) ∧
    (∀ tx idx e, contractEventsDB.L2ContractEventByTxLogIndex db tx idx = .ok (some e) →
      rawLogReconciled e) ∧
    (∀ f fromH toH es, contractEventsDB.L1ContractEventsWithFilter db f fromH toH = .ok es →
      ∀ e ∈ es, rawLogReconciled e) ∧
    (∀ f fromH toH es, contractEventsDB.L2ContractEventsWithFilter db f fromH toH = .ok es →
      ∀ e ∈ es, rawLogReconciled e) := by
  refine ⟨?_, ?_, ?_, ?_, ?_, ?_⟩
  · intro g e h
    obtain ⟨c, _, _, hr⟩ := eventWhereTake_ok_some h
    exact readEvent_reconciled hr
  · intro g e h
    obtain ⟨c, _, _, hr⟩ := eventWhereTake_ok_some h
    exact readEvent_reconciled hr
  · intro tx idx e h
    obtain ⟨c, _, _, hr⟩ := eventWhereTake_ok_some h
    exact readEvent_reconciled hr
  · intro tx idx e h
    obtain ⟨c, _, _, hr⟩ := eventWhereTake_ok_some h
    exact readEvent_reconciled hr
  · intro f fromH toH es h e he
    unfold contractEventsDB.L1ContractEventsWithFilter eventsWithFilter at h
    obtain ⟨c, _, hr⟩ := readEvents_ok_mem h e he
    exact readEvent_reconciled hr
  · intro f fromH toH es h e he
    unfold contractEventsDB.L2ContractEventsWithFilter eventsWithFilter at h
    obtain ⟨c, _, hr⟩ := readEvents_ok_mem h e he
    exact readEvent_reconciled hr

/-- Witness for C3: the stored payload of `staleEvent` disagrees with its
canonical columns on all three fields, yet the by-location lookup returns
it with the payload reconciled. -/
theorem reads_reconcile_rawLog_witness :
    staleLog.blockHash ≠ staleEvent.blockHash ∧
    staleLog.txHash ≠ staleEvent.transactionHash ∧
    staleLog.index ≠ staleEvent.logIndex ∧
    rawLogReconciled (forceRead staleEvent) :=
  ⟨by decide, by decide, by decide,
   (reads_reconcile_rawLog staleDB).2.2.1 5 1 (forceRead staleEvent) rfl⟩

/-- C4: the by-location lookup is not exact at log index 0.  On the
concrete L1 table holding only `staleEvent` (transaction hash 5, log
index 1), the lookup for transaction hash 5 and log index 0 returns that
event instead of the absent result, because the gorm struct condition
drops the zero-valued log-index field. -/
theorem byTxLogIndex_zero_divergence :
    (∀ e ∈ staleDB.l1Events, e.logIndex ≠ 0) ∧
    contractEventsDB.L1ContractEventByTxLogIndex staleDB 5 0 =
      .ok (some (forceRead staleEvent)) ∧
    (forceRead staleEvent).logIndex = 1 :=
  ⟨by decide, rfl, rfl⟩

theorem fromLog_rlpLog_isSome (g : GUID) (log : Log) (ts : Nat) :
    (ContractEventFromLog g log ts).rlpLog.isSome := by
  simp [ContractEventFromLog]

theorem eventsWithFilter_ok_of_isSome (events : List ContractEvent)
    (headers : List BlockHeader) (filter : ContractEvent) (fromHeight toHeight : Option Nat)
    (h : ∀ c ∈ events, c.rlpLog.isSome) :
    ∃ rs, eventsWithFilter events headers filter fromHeight toHeight = .ok rs := by
  refine ⟨_, readEvents_ok_of_isSome _ ?_⟩
  intro c hc
  obtain ⟨p, hp, rfl⟩ := List.mem_map.1 hc
  have hrow : p ∈ filterRows events headers filter (fromHeight.getD 0) toHeight :=
    (List.perm_insertionSort _ _).mem_iff.1 hp
  exact h p.1 (filterRows_fst_mem hrow)

/-- C9: the post-read hook writes through the raw-log pointer with no nil
check, so a row whose raw log is nil faults (the modelled panic) on every
read path that reaches it; and when every stored event of a chain was
built by `ContractEventFromLog` — which always stores a non-nil raw log —
no read operation of that chain can fault. -/
theorem afterFind_nil_guard (db : IndexerDB) :
    (∀ c : ContractEvent, c.rlpLog = none →
      c.afterFind = .error .nilRLPLogPanic ∧ readEvent c = .error .nilRLPLogPanic) ∧
    ((∀ e ∈ db.l1Events, ∃ g log ts, e = ContractEventFromLog g log ts) →
      (∀ guid, ∃ r, contractEventsDB.L1ContractEvent db guid = .ok r) ∧
      (∀ tx idx, ∃ r, contractEventsDB.L1ContractEventByTxLogIndex db tx idx = .ok r) ∧
      (∀ f fromH toH, ∃ rs,
        contractEventsDB.L1ContractEventsWithFilter db f fromH toH = .ok rs)) ∧
    ((∀ e ∈ db.l2Events, ∃ g log ts, e = ContractEventFromLog g log ts) →
      (∀ guid, ∃ r, contractEventsDB.L2ContractEvent db guid = .ok r) ∧
      (∀ tx idx, ∃ r, contractEventsDB.L2ContractEventByTxLogIndex db tx idx = .ok r) ∧
      (∀ f fromH toH, ∃ rs,
        contractEventsDB.L2ContractEventsWithFilter db f fromH toH = .ok rs)) := by
  refine ⟨?_, ?_, ?_⟩
  · intro c hc
    refine ⟨?_, readEvent_nil c hc⟩
    simp [ContractEvent.afterFind, hc]
  · intro hbuilt
    have hsome : ∀ e ∈ db.l1Events, e.rlpLog.isSome := by
      intro e he
      obtain ⟨g, log, ts, rfl⟩ := hbuilt e he
      exact fromLog_rlpLog_isSome g log ts
    exact ⟨fun guid => eventWhereTake_ok_of_isSome _ _ hsome,
           fun tx idx => eventWhereTake_ok_of_isSome _ _ hsome,
           fun f fromH toH => eventsWithFilter_ok_of_isSome _ _ _ _ _ hsome⟩
  · intro hbuilt
    have hsome : ∀ e ∈ db.l2Events, e.rlpLog.isSome := by
      intro e he
      obtain ⟨g, log, ts, rfl⟩ := hbuilt e he
      exact fromLog_rlpLog_isSome g log ts
    exact ⟨fun guid => eventWhereTake_ok_of_isSome _ _ hsome,
           fun tx idx => eventWhereTake_ok_of_isSome _ _ hsome,
           fun f fromH toH => eventsWithFilter_ok_of_isSome _ _ _ _ _ hsome⟩

/-- A state whose single L1 event was built by `ContractEventFromLog`. -/
def fromLogDB : IndexerDB :=
  { l1Headers := [], l2Headers := [],
    l1Events := [ContractEventFromLog 21 staleLog 1000], l2Events := [] }

/-- Witness for C9: a nil raw log faults, and on a state built only by
`ContractEventFromLog` the by-location read returns without a fault. -/
theorem afterFind_nil_guard_witness :
    emptyContractEvent.afterFind = .error .nilRLPLogPanic ∧
    (∃ r, contractEventsDB.L1ContractEventByTxLogIndex fromLogDB 99 4 = .ok r) :=
  ⟨((afterFind_nil_guard fromLogDB).1 emptyContractEvent rfl).1,
   ((afterFind_nil_guard fromLogDB).2.1
      (fun _e he => ⟨21, staleLog, 1000, List.mem_singleton.1 he⟩)).2.1 99 4⟩

theorem filterRows_toHeight_none (events : List ContractEvent)
    (headers : List BlockHeader) (filter : ContractEvent) (fromH : Nat) :
    filterRows events headers filter fromH none = [] := by
  simp [filterRows]

/-- C10: the two height bounds of the range query are asymmetric.  An
unspecified (nil) `toHeight` reaches SQL as NULL, the upper-bound
comparison never holds, and the query returns the empty non-error result
on every state and filter; an unspecified `fromHeight` is defaulted to 0
and is equivalent to passing 0 explicitly. -/
theorem toHeight_nil_returns_empty (db : IndexerDB) (filter : ContractEvent) :
    (∀ fromHeight,
      contractEventsDB.L1ContractEventsWithFilter db filter fromHeight none = .ok []) ∧
    (∀ fromHeight,
      contractEventsDB.L2ContractEventsWithFilter db filter fromHeight none = .ok []) ∧
    (∀ toHeight,
      contractEventsDB.L1ContractEventsWithFilter db filter none toHeight =
        contractEventsDB.L1ContractEventsWithFilter db filter (some 0) toHeight) ∧
    (∀ toHeight,
      contractEventsDB.L2ContractEventsWithFilter db filter none toHeight =
        contractEventsDB.L2ContractEventsWithFilter db filter (some 0) toHeight) := by
  refine ⟨?_, ?_, fun _ => rfl, fun _ => rfl⟩
  · intro fromHeight
    unfold contractEventsDB.L1ContractEventsWithFilter eventsWithFilter
    rw [filterRows_toHeight_none]
    rfl
  · intro fromHeight
    unfold contractEventsDB.L2ContractEventsWithFilter eventsWithFilter
    rw [filterRows_toHeight_none]
    rfl

/-- C6: the dual-chain entry point dispatches the selector "l1" to the L1
per-chain query and "l2" to the L2 per-chain query, returning the
element-wise conversion of the per-chain result (which preserves order
and count) and propagating its error unchanged; every other selector
yields the invalid-argument error — not a storage error — and no events. -/
theorem contractEventsWithFilter_dispatch (db : IndexerDB) (filter : ContractEvent)
    (fromHeight toHeight : Option Nat) :
    (contractEventsDB.ContractEventsWithFilter db filter "l1" fromHeight toHeight =
      (contractEventsDB.L1ContractEventsWithFilter db filter fromHeight toHeight).map
        (fun es => es.map id)) ∧
    (∀ es, contractEventsDB.L1ContractEventsWithFilter db filter fromHeight toHeight = .ok es →
      ∃ rs, contractEventsDB.ContractEventsWithFilter db filter "l1" fromHeight toHeight =
        .ok rs ∧ rs = es.map id ∧ rs.length = es.length) ∧
    (contractEventsDB.ContractEventsWithFilter db filter "l2" fromHeight toHeight =
      (contractEventsDB.L2ContractEventsWithFilter db filter fromHeight toHeight).map
        (fun es => es.map id)) ∧
    (∀ es, contractEventsDB.L2ContractEventsWithFilter db filter fromHeight toHeight = .ok es →
      ∃ rs, contractEventsDB.ContractEventsWithFilter db filter "l2" fromHeight toHeight =
        .ok rs ∧ rs = es.map id ∧ rs.length = es.length) ∧
    (∀ chain, chain ≠ "l1" → chain ≠ "l2" →
      contractEventsDB.ContractEventsWithFilter db filter chain fromHeight toHeight =
        .error .invalidChainType) := by
  have hl1 : contractEventsDB.ContractEventsWithFilter db filter "l1" fromHeight toHeight =
      (contractEventsDB.L1ContractEventsWithFilter db filter fromHeight toHeight).map
        (fun es => es.map id) := by
    cases h : contractEventsDB.L1ContractEventsWithFilter db filter fromHeight toHeight with
    | error err => simp [contractEventsDB.ContractEventsWithFilter, h, Except.map]
    | ok es => simp [contractEventsDB.ContractEventsWithFilter, h, Except.map]
  have hl2 : contractEventsDB.ContractEventsWithFilter db filter "l2" fromHeight toHeight =
      (contractEventsDB.L2ContractEventsWithFilter db filter fromHeight toHeight).map
        (fun es => es.map id) := by
    cases h : contractEventsDB.L2ContractEventsWithFilter db filter fromHeight toHeight with
    | error err => simp [contractEventsDB.ContractEventsWithFilter, h, Except.map]
    | ok es => simp [contractEventsDB.ContractEventsWithFilter, h, Except.map]
  refine ⟨hl1, ?_, hl2, ?_, ?_⟩
  · intro es h
    refine ⟨es.map id, ?_, rfl, by simp⟩
    rw [hl1, h]
    rfl
  · intro es h
    refine ⟨es.map id, ?_, rfl, by simp⟩
    rw [hl2, h]
    rfl
  · intro chain h1 h2
    unfold contractEventsDB.ContractEventsWithFilter
    split
    · exact absurd rfl h1
    · exact absurd rfl h2
    · rfl

/-- Witness for C6: the selector "eth" is rejected with the
invalid-argument error, and the "l1" dispatch agrees with the L1 query on
a concrete state. -/
theorem contractEventsWithFilter_dispatch_witness :
    contractEventsDB.ContractEventsWithFilter staleDB emptyContractEvent "eth" none (some 5) =
      .error .invalidChainType ∧
    (∃ rs, contractEventsDB.ContractEventsWithFilter staleDB emptyContractEvent "l1"
      none (some 5) = .ok rs ∧ rs = List.map id [] ∧ rs.length = ([] : List ContractEvent).length) :=
  ⟨(contractEventsWithFilter_dispatch staleDB emptyContractEvent none (some 5)).2.2.2.2
      "eth" (by decide) (by decide),
   (contractEventsWithFilter_dispatch staleDB emptyContractEvent none (some 5)).2.1 [] rfl⟩

instance : IsTotal (ContractEvent × Nat) (fun a b => a.2 ≤ b.2) :=
  ⟨fun a b => Nat.le_total a.2 b.2⟩

instance : IsTrans (ContractEvent × Nat) (fun a b => a.2 ≤ b.2) :=
  ⟨fun _ _ _ hab hbc => Nat.le_trans hab hbc⟩

theorem mem_filterRows {events : List ContractEvent} {headers : List BlockHeader}
    {filter : ContractEvent} {fromH toH : Nat} {p : ContractEvent × Nat} :
    p ∈ filterRows events headers filter fromH (some toH) ↔
      p.1 ∈ events ∧ matchesWhere filter p.1 ∧
      ∃ h ∈ headers, h.hash = p.1.blockHash ∧ h.number = p.2 ∧
        fromH ≤ p.2 ∧ p.2 ≤ toH := by
  obtain ⟨e, n⟩ := p
  simp only [filterRows, List.mem_flatMap, List.mem_map, List.mem_filter,
    Bool.and_eq_true, decide_eq_true_eq, beq_iff_eq]
  constructor
  · rintro ⟨e', ⟨he', hm⟩, h, ⟨⟨hhm, hhash⟩, hfrom, hto⟩, heq⟩
    obtain ⟨rfl, rfl⟩ := Prod.mk.injEq e' h.number e n ▸ heq
    exact ⟨he', hm, h, hhm, hhash, rfl, hfrom, hto⟩
  · rintro ⟨he, hm, h, hhm, hhash, hnum, hfrom, hto⟩
    exact ⟨e, ⟨he, hm⟩, h, ⟨⟨hhm, hhash⟩, hnum ▸ hfrom, hnum ▸ hto⟩,
      by rw [hnum]⟩

theorem containingNumber_eq {headers : List BlockHeader}
    (hnodup : (headers.map (fun g => g.hash)).Nodup) {h : BlockHeader}
    (hmem : h ∈ headers) {e : ContractEvent} (hh : h.hash = e.blockHash) :
    containingNumber headers e = h.number := by
  unfold containingNumber
  cases hf : headers.find? (fun g => g.hash == e.blockHash) with
  | none =>
    rw [List.find?_eq_none] at hf
    exact absurd (by simp [hh]) (hf h hmem)
  | some g =>
    have hg : g.hash = e.blockHash := by simpa using List.find?_some hf
    have hgm := List.mem_of_find?_eq_some hf
    have hge : g = h := List.inj_on_of_nodup_map hnodup hgm hmem (by rw [hg, hh])
    simp [hge]

theorem containingNumber_forceRead (headers : List BlockHeader) (c : ContractEvent) :
    containingNumber headers (forceRead c) = containingNumber headers c := rfl

theorem eventsWithFilter_spec (events : List ContractEvent) (headers : List BlockHeader)
    (filter : ContractEvent) (fromHeight : Option Nat) (toHeight : Nat)
    (hnodup : (headers.map (fun g => g.hash)).Nodup)
    (hwf : ∀ c ∈ events, c.rlpLog.isSome) :
    ∃ es, eventsWithFilter events headers filter fromHeight (some toHeight) = .ok es ∧
      (∀ x, x ∈ es ↔ ∃ e ∈ events, readEvent e = .ok x ∧ matchesWhere filter e ∧
        ∃ h ∈ headers, h.hash = e.blockHash ∧ fromHeight.getD 0 ≤ h.number ∧
          h.number ≤ toHeight) ∧
      es.Pairwise (fun a b => containingNumber headers a ≤ containingNumber headers b) := by
  refine ⟨(((filterRows events headers filter (fromHeight.getD 0)
      (some toHeight)).insertionSort (fun a b => a.2 ≤ b.2)).map (fun p => p.1)).map
        forceRead, ?_, ?_, ?_⟩
  · exact readEvents_ok_of_isSome _ (by
      intro c hc
      obtain ⟨q, hq, rfl⟩ := List.mem_map.1 hc
      exact hwf q.1 (filterRows_fst_mem ((List.perm_insertionSort _ _).mem_iff.1 hq)))
  · intro x
    constructor
    · intro hx
      obtain ⟨c, hc, rfl⟩ := List.mem_map.1 hx
      obtain ⟨q, hq, rfl⟩ := List.mem_map.1 hc
      have hrow := (List.perm_insertionSort _ _).mem_iff.1 hq
      obtain ⟨he, hm, h, hhm, hhash, hnum, hfrom, hto⟩ := mem_filterRows.1 hrow
      exact ⟨q.1, he, readEvent_isSome_ok q.1 (hwf q.1 he), hm, h, hhm, hhash,
        hnum ▸ hfrom, hnum ▸ hto⟩
    · rintro ⟨e, he, hr, hm, h, hhm, hhash, hfrom, hto⟩
      have hrow : (e, h.number) ∈ filterRows events headers filter (fromHeight.getD 0)
          (some toHeight) := mem_filterRows.2 ⟨he, hm, h, hhm, hhash, rfl, hfrom, hto⟩
      have hq : (e, h.number) ∈ (filterRows events headers filter (fromHeight.getD 0)
          (some toHeight)).insertionSort (fun a b => a.2 ≤ b.2) :=
        (List.perm_insertionSort _ _).mem_iff.2 hrow
      have hx : x = forceRead e := readEvent_ok_eq hr
      rw [hx]
      exact List.mem_map.2 ⟨e, List.mem_map.2 ⟨(e, h.number), hq, rfl⟩, rfl⟩
  · have hkey : ∀ q ∈ (filterRows events headers filter (fromHeight.getD 0)
        (some toHeight)).insertionSort (fun a b => a.2 ≤ b.2),
        containingNumber headers q.1 = q.2 := by
      intro q hq
      have hrow := (List.perm_insertionSort _ _).mem_iff.1 hq
      obtain ⟨_, _, h, hhm, hhash, hnum, _, _⟩ := mem_filterRows.1 hrow
      rw [← hnum]
      exact containingNumber_eq hnodup hhm hhash
    have hsorted : ((filterRows events headers filter (fromHeight.getD 0)
        (some toHeight)).insertionSort (fun a b => a.2 ≤ b.2)).Pairwise
          (fun a b => a.2 ≤ b.2) :=
      List.sorted_insertionSort _ _
    rw [List.map_map, List.pairwise_map]
    refine List.Pairwise.imp_of_mem ?_ hsorted
    intro p q hp hq hle
    show containingNumber headers (forceRead p.1) ≤ containingNumber headers (forceRead q.1)
    rw [containingNumber_forceRead, containingNumber_forceRead, hkey p hp, hkey q hq]
    exact hle

/-- C5: with a specified `toHeight` (the nil upper bound is the subject of
C10), the range query of either chain returns exactly the stored events of
that chain that agree with every non-zero field of the filter template and
whose containing header (the unique stored header whose hash equals the
event's block hash) has its number in the inclusive interval from
`fromHeight` (defaulted to 0 when unspecified) to `toHeight`, each read
through the reconciliation hook; and the result is sorted in ascending
order of the containing header's number.  The hypotheses are the table
invariants: header hashes are a primary key, and stored events hold
non-nil raw logs. -/
theorem eventsWithFilter_range_correct (db : IndexerDB) (filter : ContractEvent)
    (fromHeight : Option Nat) (toHeight : Nat)
    (hnodup1 : (db.l1Headers.map (fun g => g.hash)).Nodup)
    (hwf1 : ∀ c ∈ db.l1Events, c.rlpLog.isSome)
    (hnodup2 : (db.l2Headers.map (fun g => g.hash)).Nodup)
    (hwf2 : ∀ c ∈ db.l2Events, c.rlpLog.isSome) :
    (∃ es, contractEventsDB.L1ContractEventsWithFilter db filter fromHeight
        (some toHeight) = .ok es ∧
      (∀ x, x ∈ es ↔ ∃ e ∈ db.l1Events, readEvent e = .ok x ∧ matchesWhere filter e ∧
        ∃ h ∈ db.l1Headers, h.hash = e.blockHash ∧ fromHeight.getD 0 ≤ h.number ∧
          h.number ≤ toHeight) ∧
      es.Pairwise (fun a b =>
        containingNumber db.l1Headers a ≤ containingNumber db.l1Headers b)) ∧
    (∃ es, contractEventsDB.L2ContractEventsWithFilter db filter fromHeight
        (some toHeight) = .ok es ∧
      (∀ x, x ∈ es ↔ ∃ e ∈ db.l2Events, readEvent e = .ok x ∧ matchesWhere filter e ∧
        ∃ h ∈ db.l2Headers, h.hash = e.blockHash ∧ fromHeight.getD 0 ≤ h.number ∧
          h.number ≤ toHeight) ∧
      es.Pairwise (fun a b =>
        containingNumber db.l2Headers a ≤ containingNumber db.l2Headers b)) :=
  ⟨eventsWithFilter_spec db.l1Events db.l1Headers filter fromHeight toHeight hnodup1 hwf1,
   eventsWithFilter_spec db.l2Events db.l2Headers filter fromHeight toHeight hnodup2 hwf2⟩

/-- Header of L1 block 100, referenced by `c5EventA`. -/
def c5HeaderA : BlockHeader :=
  { hash := 31, parentHash := 30, number := 100, timestamp := 1000, rlpHeader := none }

/-- Header of L1 block 101, referenced by `c5EventB`. -/
def c5HeaderB : BlockHeader :=
  { hash := 32, parentHash := 31, number := 101, timestamp := 1010, rlpHeader := none }

/-- An event contained in block 100. -/
def c5EventA : ContractEvent :=
  { guid := 41, blockHash := 31, contractAddress := 7, transactionHash := 5,
    logIndex := 1, eventSignature := 9, timestamp := 1000, rlpLog := some staleLog }

/-- An event contained in block 101, stored BEFORE `c5EventA` so that the
query's ordering is observable. -/
def c5EventB : ContractEvent :=
  { guid := 42, blockHash := 32, contractAddress := 8, transactionHash := 6,
    logIndex := 0, eventSignature := 0, timestamp := 1010, rlpLog := some staleLog }

/-- A two-header, two-event L1 state with rows stored in descending block
order. -/
def c5DB : IndexerDB :=
  { l1Headers := [c5HeaderB, c5HeaderA], l2Headers := [],
    l1Events := [c5EventB, c5EventA], l2Events := [] }

/-- Witness for C5: on the concrete state the query returns exactly the
two events, reordered ascending by containing block number, and the
characterization theorem applies to that state. -/
theorem eventsWithFilter_range_correct_witness :
    contractEventsDB.L1ContractEventsWithFilter c5DB emptyContractEvent none (some 200) =
      .ok [forceRead c5EventA, forceRead c5EventB] ∧
    (∃ es, contractEventsDB.L1ContractEventsWithFilter c5DB emptyContractEvent none
        (some 200) = .ok es ∧
      (∀ x, x ∈ es ↔ ∃ e ∈ c5DB.l1Events, readEvent e = .ok x ∧
        matchesWhere emptyContractEvent e ∧
        ∃ h ∈ c5DB.l1Headers, h.hash = e.blockHash ∧
          (none : Option Nat).getD 0 ≤ h.number ∧ h.number ≤ 200) ∧
      es.Pairwise (fun a b =>
        containingNumber c5DB.l1Headers a ≤ containingNumber c5DB.l1Headers b)) :=
  ⟨rfl,
   (eventsWithFilter_range_correct c5DB emptyContractEvent none 200
      (by decide) (by decide) (by decide) (by decide)).1⟩
